import Mathlib

set_option maxRecDepth 100000

/-!
Verification of the matching and classification engine of the job-search
repository: a shallow embedding of `brain.py` (with the configuration
constants it imports from `config.py` and the resume-profile shape produced
by `Data_Extraction.extract_resume_keywords`), together with theorems about
the embedded definitions.

Modelling conventions:
* Python `str` is Lean `String`; all text processing is performed on
  `List Char` with structural recursion so that concrete instances reduce
  inside the kernel.  Python's `str.lower` and the `re` character class
  `\w` are modelled on their ASCII behaviour (`Char.toLower`,
  alphanumeric-or-underscore), which is exact for every string handled here.
* Python floats are modelled as exact real numbers (`ℝ`);
  `round(x, 1)` is modelled as exact decimal round-half-to-even.
* Python dicts used as sparse vectors are modelled as a finite key set
  together with a value function (`SparseVec`).
* Python sets of strings are modelled as duplicate-free lists
  (`List.dedup`); every use in the source is order-insensitive or
  immediately followed by a sort with an injective key.
* A job dict is modelled with `Option String` fields: `none` stands for a
  key whose value is `None`, which makes the corresponding Python code
  raise (`None.lower()`, `None + " "`), while a missing key defaults to the
  empty string.  `classify_job` therefore returns `Except String _`, with
  `Except.error` marking the raise.
-/

namespace JobBrain

/-! ### Character level helpers for `_normalise` and the `re` patterns -/

/-- Python regex word character `\w` (ASCII fragment): letters, digits, underscore. -/
def isWordChar (c : Char) : Bool := c.isAlphanum || c == '_'

/-- Characters kept verbatim by `_normalise`'s first substitution
`re.sub(r"[^\w\s\.\+\#]", " ", text)`: word characters and `.`, `+`, `#`.
Whitespace is also kept by the regex, but since the second substitution
`re.sub(r"\s+", " ", ...)` then turns every whitespace run into one space,
mapping whitespace to `' '` here followed by collapsing runs of `' '` gives
the same result. -/
def keepChar (c : Char) : Bool := isWordChar c || c == '.' || c == '+' || c == '#'

/-- Collapse runs of spaces to a single space (`re.sub(r"\s+", " ", ...)`
after all whitespace has been mapped to `' '`). -/
def collapseSpaces : List Char → List Char
  | [] => []
  | [c] => [c]
  | a :: b :: rest =>
    if a == ' ' && b == ' ' then collapseSpaces (b :: rest)
    else a :: collapseSpaces (b :: rest)

/-- Remove leading and trailing spaces (`str.strip` on the collapsed text,
where only `' '` can remain at the ends). -/
def trimSpaces (l : List Char) : List Char :=
  ((l.dropWhile (· == ' ')).reverse.dropWhile (· == ' ')).reverse

/-- `_normalise` on the character list: lowercase, replace every character
outside `[\w\s\.\+\#]` by a space, collapse whitespace, strip. -/
def normaliseChars (l : List Char) : List Char :=
  trimSpaces (collapseSpaces ((l.map Char.toLower).map fun c => if keepChar c then c else ' '))

/-- `_normalise(text)` from `brain.py`. -/
def normalise (s : String) : String := ⟨normaliseChars s.data⟩

/-- Split a normalised character list into words, dropping empty pieces
(Python `str.split()` with no argument). -/
def splitWords : List Char → List Char → List String
  | [], acc => if acc.isEmpty then [] else [⟨acc.reverse⟩]
  | c :: cs, acc =>
    if c == ' ' then
      if acc.isEmpty then splitWords cs [] else ⟨acc.reverse⟩ :: splitWords cs []
    else splitWords cs (c :: acc)

/-- `_tokenise(text)` from `brain.py`: normalise then whitespace split. -/
def tokenise (s : String) : List String := splitWords (normalise s).data []

/-- Python's substring test `pat in hay`. -/
def containsSub (hay pat : List Char) : Bool :=
  (List.range (hay.length + 1)).any fun i => pat.isPrefixOf (hay.drop i)

/-- Whether the character at index `i` of `s` is a word character
(out of bounds counts as not a word character). -/
def wordCharAt (s : List Char) (i : Nat) : Bool := isWordChar ((s.drop i).headD ' ')

/-- The regex `\b` zero-width assertion at position `i` of `s`
(between index `i - 1` and index `i`). -/
def boundaryAt (s : List Char) (i : Nat) : Bool :=
  (if i == 0 then false else wordCharAt s (i - 1)) != wordCharAt s i

/-- A match of the regex `\b<escaped pat>\b` starting at position `i` of `s`. -/
def wholeWordAt (pat s : List Char) (i : Nat) : Bool :=
  boundaryAt s i && pat.isPrefixOf (s.drop i) && boundaryAt s (i + pat.length)

/-- `re.search(rf"\b{re.escape(pat)}\b", s)` succeeds. -/
def wholeWordSearch (pat s : List Char) : Bool :=
  (List.range (s.length + 1)).any fun i => wholeWordAt pat s i

/-- Left-to-right non-overlapping scan of `re.findall`: on a match the scan
resumes after the matched text (one position further for a zero-width
match), otherwise it advances one position.  `fuel` bounds the recursion. -/
def countOccFrom : Nat → List Char → List Char → Nat → Nat
  | 0, _, _, _ => 0
  | fuel + 1, pat, s, i =>
    if s.length < i then 0
    else if wholeWordAt pat s i then 1 + countOccFrom fuel pat s (i + max pat.length 1)
    else countOccFrom fuel pat s (i + 1)

/-- `len(re.findall(rf"\b{re.escape(pat)}\b", s))`. -/
def countOcc (pat s : List Char) : Nat := countOccFrom (s.length + 1) pat s 0

/-- Python string comparison `a <= b`: lexicographic on code points. -/
def lexLe : List Char → List Char → Bool
  | [], _ => true
  | _ :: _, [] => false
  | a :: as, b :: bs =>
    if a.toNat < b.toNat then true
    else if b.toNat < a.toNat then false
    else lexLe as bs

/-- Python slicing `s[:n]` (by code points). -/
def strTake (s : String) (n : Nat) : String := ⟨s.data.take n⟩

/-- Python `str.lower` (ASCII behaviour). -/
def lowerStr (s : String) : String := ⟨s.data.map Char.toLower⟩

/-- Python `str.strip`. -/
def stripStr (s : String) : String :=
  ⟨((s.data.dropWhile Char.isWhitespace).reverse.dropWhile Char.isWhitespace).reverse⟩

/-! ### Configuration data from `config.py` -/

/-- `MATCH_THRESHOLD_PCT = 72`; `MATCH_THRESHOLD = MATCH_THRESHOLD_PCT / 100.0`. -/
noncomputable def MATCH_THRESHOLD : ℝ := 72 / 100

/-- `TECH_SKILLS` from `config.py`. -/
def TECH_SKILLS : List String := [
  "python", "r", "sql", "scala", "java", "julia", "bash", "shell",
  "tensorflow", "pytorch", "keras", "scikit-learn", "sklearn",
  "xgboost", "lightgbm", "catboost", "huggingface", "transformers",
  "pandas", "numpy", "scipy", "dask", "polars",
  "matplotlib", "seaborn", "plotly", "tableau", "power bi", "powerbi",
  "looker", "d3.js",
  "spark", "pyspark", "hadoop", "hive", "kafka", "airflow",
  "aws", "gcp", "azure", "s3", "ec2", "sagemaker", "databricks",
  "snowflake", "redshift", "bigquery",
  "postgresql", "mysql", "mongodb", "cassandra", "elasticsearch",
  "redis", "sqlite",
  "mlflow", "kubeflow", "docker", "kubernetes", "git", "github",
  "gitlab", "ci/cd", "jenkins", "terraform",
  "nlp", "natural language processing", "spacy", "nltk", "bert",
  "gpt", "llm", "rag", "langchain", "openai",
  "statistics", "probability", "linear algebra", "calculus",
  "hypothesis testing", "a/b testing", "regression", "classification",
  "clustering", "time series", "forecasting", "bayesian",
  "jupyter", "anaconda", "streamlit", "flask", "fastapi",
  "rest api", "graphql", "etl", "data pipeline", "feature engineering",
  "data wrangling", "eda", "exploratory data analysis"]

/-- `TECH_SKILLS_SET = set(s.lower().strip() for s in TECH_SKILLS)`,
modelled as a duplicate-free list. -/
def TECH_SKILLS_SET : List String := (TECH_SKILLS.map fun s => stripStr (lowerStr s)).dedup

/-- `SOFT_SKILLS` from `config.py`. -/
def SOFT_SKILLS : List String := [
  "communication", "collaboration", "teamwork", "leadership",
  "problem solving", "problem-solving", "critical thinking",
  "analytical thinking", "attention to detail", "time management",
  "project management", "stakeholder management", "presentation",
  "mentoring", "cross-functional", "agile", "scrum"]

/-- `SOFT_SKILLS_SET`, modelled as a duplicate-free list. -/
def SOFT_SKILLS_SET : List String := (SOFT_SKILLS.map fun s => stripStr (lowerStr s)).dedup

/-- `MAANG_COMPANIES` from `config.py`. -/
def MAANG_COMPANIES : List (String × List String) := [
  ("meta", ["meta", "facebook", "instagram", "whatsapp", "oculus"]),
  ("apple", ["apple", "apple inc"]),
  ("amazon", ["amazon", "aws", "amazon web services", "amazon.com"]),
  ("netflix", ["netflix"]),
  ("google", ["google", "alphabet", "deepmind", "waymo", "youtube"])]

/-- `MAANG_ALIASES`: the flat alias set, modelled as a duplicate-free list. -/
def MAANG_ALIASES : List String :=
  (((MAANG_COMPANIES.map Prod.snd).foldr (· ++ ·) []).map lowerStr).dedup

/-- `FORTUNE_500_COMPANIES` from `config.py`. -/
def FORTUNE_500_COMPANIES : List String := [
  "apple", "amazon", "alphabet", "google", "microsoft", "meta",
  "facebook", "netflix", "intel", "ibm", "oracle", "salesforce",
  "dell", "hp", "hewlett packard", "qualcomm", "cisco", "broadcom",
  "nvidia", "amd",
  "jpmorgan", "jp morgan", "bank of america", "wells fargo",
  "goldman sachs", "morgan stanley", "citigroup", "citi",
  "american express", "visa", "mastercard", "paypal", "fidelity",
  "charles schwab", "blackrock", "vanguard", "capital one",
  "unitedhealth", "cvs health", "mckesson", "johnson & johnson",
  "abbvie", "pfizer", "merck", "eli lilly", "bristol myers squibb",
  "humana", "anthem", "cigna",
  "walmart", "target", "costco", "home depot", "lowes", "kroger",
  "walgreens", "procter & gamble", "coca-cola", "pepsico", "nestle",
  "exxon", "chevron", "shell", "bp", "conocophillips",
  "general electric", "ge", "boeing", "lockheed martin", "raytheon",
  "caterpillar", "honeywell", "3m",
  "at&t", "verizon", "comcast", "disney", "warner bros",
  "t-mobile", "charter",
  "ford", "general motors", "gm", "tesla",
  "accenture", "deloitte", "kpmg", "pwc", "ernst & young", "ey",
  "mckinsey", "bain",
  "fedex", "ups", "dhl", "uber", "lyft", "airbnb",
  "twitter", "linkedin", "snap", "spotify", "adobe", "workday",
  "servicenow", "palantir", "snowflake", "databricks", "stripe",
  "square", "block"]

/-- `FORTUNE_500_SET`, modelled as a duplicate-free list. -/
def FORTUNE_500_SET : List String :=
  (FORTUNE_500_COMPANIES.map fun c => stripStr (lowerStr c)).dedup

/-- `H1B_POSITIVE_KEYWORDS` from `config.py`. -/
def H1B_POSITIVE_KEYWORDS : List String := [
  "h1b", "h-1b", "h1-b", "will sponsor", "visa sponsorship",
  "sponsorship available", "open to sponsorship", "sponsor work visa",
  "employment authorization", "work authorization provided",
  "we sponsor", "sponsoring h1b", "ead accepted",
  "visa transfer", "h1b transfer"]

/-- `H1B_NEGATIVE_KEYWORDS` from `config.py`. -/
def H1B_NEGATIVE_KEYWORDS : List String := [
  "no sponsorship", "not able to sponsor", "cannot sponsor",
  "sponsorship not available", "must be authorized",
  "must be eligible to work", "us citizens only",
  "us citizen or permanent resident", "green card only",
  "no h1b", "no visa", "no h-1b",
  "we are unable to sponsor", "unable to provide sponsorship",
  "does not sponsor"]

/-- `PORTAL_PATTERNS` from `config.py`; a Python dict preserves insertion
order, so the pairs are listed in the source order. -/
def PORTAL_PATTERNS : List (String × List String) := [
  ("Workday", ["workday.com", "myworkdayjobs.com"]),
  ("Greenhouse", ["greenhouse.io", "boards.greenhouse.io"]),
  ("Lever", ["lever.co", "jobs.lever.co"]),
  ("Taleo", ["taleo.net", "oraclecloud.com/hcmUI/CandidateExperience"]),
  ("iCIMS", ["icims.com"]),
  ("SmartRecruiters", ["smartrecruiters.com"]),
  ("BambooHR", ["bamboohr.com"]),
  ("Jobvite", ["jobvite.com"]),
  ("ADP", ["adp.com", "workforcenow.adp.com"]),
  ("SAP SuccessFactors", ["successfactors.com", "sapsf.com"]),
  ("LinkedIn Easy Apply", ["linkedin.com/jobs"]),
  ("Indeed", ["indeed.com/apply", "indeed.com/viewjob"])]

/-! ### Resume profile (shape of `Data_Extraction.extract_resume_keywords`) -/

/-- The fields of the resume-profile dict that `brain.py` reads:
`raw_text` and `all_keywords`. -/
structure ResumeProfile where
  raw_text : String
  all_keywords : List String

/-! ### Detectors from `brain.py` -/

/-- `detect_h1b(text)`: `some true` / `some false` / `none` for the Python
`True` / `False` / `None`. -/
def detect_h1b (text : String) : Option Bool :=
  let norm := normalise text
  let positive := H1B_POSITIVE_KEYWORDS.any fun kw => containsSub norm.data kw.data
  let negative := H1B_NEGATIVE_KEYWORDS.any fun kw => containsSub norm.data kw.data
  if negative then some false
  else if positive then some true
  else none

/-- `detect_maang(company_name, job_text)`. -/
def detect_maang (company_name : String) (job_text : String) : Bool :=
  let search_corpus := normalise (company_name ++ " " ++ strTake job_text 500)
  MAANG_ALIASES.any fun al => wholeWordSearch al.data search_corpus.data

/-- `detect_fortune500(company_name)`. -/
def detect_fortune500 (company_name : String) : Bool :=
  let norm_name := normalise company_name
  FORTUNE_500_SET.any fun f500 =>
    containsSub norm_name.data f500.data || containsSub f500.data norm_name.data

/-- `detect_portal(job_url, job_text)`. -/
def detect_portal (job_url : String) (job_text : String) : String :=
  let search_text := lowerStr (job_url ++ " " ++ strTake job_text 1000)
  match PORTAL_PATTERNS.find? (fun pp =>
      pp.2.any fun pat => containsSub search_text.data (lowerStr pat).data) with
  | some pp => pp.1
  | none => "Unknown"

/-! ### ATS keyword extraction -/

/-- `TECH_SKILLS_SET | SOFT_SKILLS_SET`, modelled as a duplicate-free list. -/
def ALL_KNOWN_SKILLS : List String := (TECH_SKILLS_SET ++ SOFT_SKILLS_SET).dedup

/-- The sort key `lambda x: (-x[1], x[0])` of `extract_ats_keywords` as a
binary comparison: more occurrences first, ties by ascending term. -/
def atsKey (x y : String × Nat) : Bool :=
  if y.2 < x.2 then true
  else if x.2 < y.2 then false
  else lexLe x.1.data y.1.data

/-- The sort relation of `job_skill_hits.sort(key=lambda x: (-x[1], x[0]))`.
Python's sort is stable, and a stable sort's output is uniquely determined
by the total preorder, so `List.insertionSort` models it exactly. -/
def hitLe (x y : String × Nat) : Prop := atsKey x y = true

instance : DecidableRel hitLe := fun _ _ => Bool.decEq _ _

/-- Python's `sorted` on strings (ascending, code-point lexicographic). -/
def skillLe (a b : String) : Prop := lexLe a.data b.data = true

instance : DecidableRel skillLe := fun _ _ => Bool.decEq _ _

/-- `extract_ats_keywords(job_text, resume_profile)`.  The Python body
computes `resume_skills` from the profile but never uses it. -/
def extract_ats_keywords (job_text : String) (resume_profile : ResumeProfile) : List String :=
  let norm_job := normalise job_text
  let _resume_skills := resume_profile.all_keywords.dedup
  let job_skill_hits := ALL_KNOWN_SKILLS.filterMap fun skill =>
    if 0 < countOcc skill.data norm_job.data then
      some (skill, countOcc skill.data norm_job.data)
    else none
  ((job_skill_hits.insertionSort hitLe).take 20).map Prod.fst

/-! ### TF-IDF vectors and cosine similarity -/

/-- A Python dict with `float` values, as built by `_build_tfidf_vector`:
a finite key set together with a value function (values are only meaningful
on the keys; `_build_tfidf_vector` makes the function vanish off them). -/
structure SparseVec where
  keys : Finset String
  val : String → ℝ

/-- `_compute_idf(corpus)` as a total function; `idf.get(term, 1.0)` is the
read access used by `_build_tfidf_vector`, so terms outside the corpus
(document frequency 0) get the default 1.0. -/
noncomputable def compute_idf (corpus : List (List String)) : String → ℝ := fun term =>
  let n := corpus.length
  let df := (corpus.filter fun tokens => term ∈ tokens).length
  if df = 0 then 1 else Real.log (((n : ℝ) + 1) / ((df : ℝ) + 1)) + 1

/-- `_build_tfidf_vector(tokens, idf)`: `tf = Counter(tokens)`,
`total = len(tokens) or 1`, value `count / total * idf.get(term, 1.0)`. -/
noncomputable def build_tfidf_vector (tokens : List String) (idf : String → ℝ) : SparseVec where
  keys := tokens.toFinset
  val := fun term => ((tokens.count term : ℝ) / ((max tokens.length 1 : ℕ) : ℝ)) * idf term

/-- `math.sqrt(sum(v ** 2 for v in vec.values()))` from `_cosine_similarity`. -/
noncomputable def magnitude (v : SparseVec) : ℝ :=
  Real.sqrt (∑ t ∈ v.keys, v.val t ^ 2)

/-- `_cosine_similarity(vec_a, vec_b)`; `common = set(vec_a) & set(vec_b)`
is inlined as the key-set intersection. -/
noncomputable def cosine_similarity (vec_a vec_b : SparseVec) : ℝ :=
  if vec_a.keys ∩ vec_b.keys = ∅ then 0
  else if magnitude vec_a = 0 ∨ magnitude vec_b = 0 then 0
  else (∑ t ∈ vec_a.keys ∩ vec_b.keys, vec_a.val t * vec_b.val t) /
    (magnitude vec_a * magnitude vec_b)

/-! ### Match score -/

/-- `calculate_match_score(resume_profile, job_text)` with the default
weights `alpha = 0.65`, `beta = 0.35` inlined (no caller overrides them).
`not resume_text or not job_text` is string emptiness. -/
noncomputable def calculate_match_score (resume_profile : ResumeProfile) (job_text : String) : ℝ :=
  if resume_profile.raw_text = "" ∨ job_text = "" then 0
  else
    let resume_tokens := tokenise resume_profile.raw_text
    let job_tokens := tokenise job_text
    let idf := compute_idf [resume_tokens, job_tokens]
    let vec_resume := build_tfidf_vector resume_tokens idf
    let vec_job := build_tfidf_vector job_tokens idf
    let tfidf_sim := cosine_similarity vec_resume vec_job
    let resume_skills := resume_profile.all_keywords.dedup
    let norm_job := normalise job_text
    let matched_skills :=
      (resume_skills.filter fun skill => wholeWordSearch skill.data norm_job.data).length
    let overlap_ratio := (matched_skills : ℝ) / ((max resume_skills.length 1 : ℕ) : ℝ)
    let combined := 0.65 * tfidf_sim + 0.35 * overlap_ratio
    max 0 (min 1 combined)

/-- The TF-IDF cosine-similarity component of `calculate_match_score`,
named as in the specification (`tfidfSim`). -/
noncomputable def tfidf_similarity (resume_text job_text : String) : ℝ :=
  let resume_tokens := tokenise resume_text
  let job_tokens := tokenise job_text
  let idf := compute_idf [resume_tokens, job_tokens]
  cosine_similarity (build_tfidf_vector resume_tokens idf) (build_tfidf_vector job_tokens idf)

/-- The keyword-overlap component of `calculate_match_score`, named as in
the specification (`overlapRatio`): matched distinct resume keywords over
`max(1, keyword count)`. -/
noncomputable def overlap_ratio (resume_profile : ResumeProfile) (job_text : String) : ℝ :=
  let resume_skills := resume_profile.all_keywords.dedup
  let matched_skills :=
    (resume_skills.filter fun skill => wholeWordSearch skill.data (normalise job_text).data).length
  (matched_skills : ℝ) / ((max resume_skills.length 1 : ℕ) : ℝ)

/-! ### Job classification -/

/-- Exact decimal round-half-to-even, the idealisation of Python's
`round(x, ndigits)` tie behaviour. -/
noncomputable def roundHalfEven (x : ℝ) : ℤ :=
  if x - ⌊x⌋ < 1 / 2 then ⌊x⌋
  else if (1 : ℝ) / 2 < x - ⌊x⌋ then ⌊x⌋ + 1
  else if Even ⌊x⌋ then ⌊x⌋ else ⌊x⌋ + 1

/-- Python's `round(x, 1)`. -/
noncomputable def pyRound1 (x : ℝ) : ℝ := (roundHalfEven (x * 10) : ℤ) / 10

/-- `score >= MATCH_THRESHOLD` as the Python `bool`. -/
noncomputable def aboveThresholdB (score : ℝ) : Bool := decide (MATCH_THRESHOLD ≤ score)

/-- A raw job dict as consumed by `classify_job`.  A field holding `none`
models a key explicitly set to Python `None`; a missing key defaults to
`""` via `job.get(..., "")`. -/
structure Job where
  title : Option String
  company : Option String
  description : Option String
  url : Option String

/-- The enriched job dict returned by `classify_job`: the original fields
together with the computed classification fields. -/
structure ClassifiedJob where
  title : Option String
  company : Option String
  description : Option String
  url : Option String
  match_score : ℝ
  match_pct : ℝ
  h1b_sponsor : Option Bool
  is_maang : Bool
  is_fortune500 : Bool
  portal : String
  ats_keywords : List String
  key_skills : List String
  above_threshold : Bool

/-- `classify_job(job, resume_profile)`.  When `description` is `None` the
Python code raises inside `detect_h1b` (`None.lower()`), when `company` is
`None` inside `detect_maang` (`None + " "`), and when `url` is `None`
inside `detect_portal`; those raises are modelled as `Except.error`.
`calculate_match_score` itself treats a `None` description as falsy, so the
score is computed before any raise, but the raise discards it. -/
noncomputable def classify_job (job : Job) (resume_profile : ResumeProfile) :
    Except String ClassifiedJob :=
  match job.description, job.company, job.url with
  | some description, some company, some url =>
    let score := calculate_match_score resume_profile description
    let match_pct := pyRound1 (score * 100)
    let h1b := detect_h1b description
    let is_maang := detect_maang company description
    let is_f500 := detect_fortune500 company
    let portal := detect_portal url description
    let ats_kw := extract_ats_keywords description resume_profile
    let norm_desc := normalise description
    let resume_skills := resume_profile.all_keywords.dedup
    let key_skills := resume_skills.filter fun s => wholeWordSearch s.data norm_desc.data
    Except.ok
      { title := job.title
        company := some company
        description := some description
        url := some url
        match_score := score
        match_pct := match_pct
        h1b_sponsor := h1b
        is_maang := is_maang
        is_fortune500 := is_f500
        portal := portal
        ats_keywords := ats_kw
        key_skills := key_skills.insertionSort skillLe
        above_threshold := aboveThresholdB score }
  | none, _, _ => Except.error "AttributeError in detect_h1b"
  | some _, none, _ => Except.error "TypeError in detect_maang"
  | some _, some _, none => Except.error "TypeError in detect_portal"

/-- The descending-`match_pct` sort relation of `classify_jobs_batch`
(`key=lambda j: j["match_pct"], reverse=True`; stable). -/
def pctDesc (a b : ClassifiedJob) : Prop := b.match_pct ≤ a.match_pct

noncomputable instance : DecidableRel pctDesc := fun a b =>
  Real.decidableLE b.match_pct a.match_pct

/-- `classify_jobs_batch(jobs, resume_profile)`: classify each job,
catching (and dropping) failures, keep those above threshold, sort by
`match_pct` descending (stable). -/
noncomputable def classify_jobs_batch (jobs : List Job) (resume_profile : ResumeProfile) :
    List ClassifiedJob :=
  let enriched := jobs.filterMap fun job => (classify_job job resume_profile).toOption
  let qualified := enriched.filter fun j => j.above_threshold
  qualified.insertionSort pctDesc

/-! ### Concrete inputs used by witness theorems -/

/-- A resume profile with empty raw text and no keywords. -/
def profileW : ResumeProfile := { raw_text := "", all_keywords := [] }

/-- A well-formed job dict (all fields present as strings). -/
def jobW : Job := { title := some "t", company := some "", description := some "", url := some "" }

/-- A job dict whose `description` key holds Python `None`, which makes
`classify_job` raise inside `detect_h1b`. -/
def jobFail : Job := { title := none, company := some "", description := none, url := some "" }

/-- The classification record produced for `jobW` against `profileW`. -/
noncomputable def cW : ClassifiedJob :=
  (classify_job jobW profileW).toOption.getD
    ⟨none, none, none, none, 0, 0, none, false, false, "", [], [], false⟩

/-! ### Properties of the order relations used by the sorts -/

theorem lexLe_total : ∀ a b : List Char, (lexLe a b || lexLe b a) = true := by
  intro a
  induction a with
  | nil => intro b; simp [lexLe]
  | cons x xs ih =>
    intro b
    cases b with
    | nil => simp [lexLe]
    | cons y ys =>
      simp only [lexLe]
      rcases Nat.lt_trichotomy x.toNat y.toNat with h | h | h
      · simp [h]
      · simp [h, Nat.lt_irrefl, ih ys]
      · simp [h, Nat.lt_asymm h]

theorem lexLe_trans :
    ∀ a b c : List Char, lexLe a b = true → lexLe b c = true → lexLe a c = true := by
  intro a
  induction a with
  | nil => intro b c _ _; simp [lexLe]
  | cons x xs ih =>
    intro b c hab hbc
    cases b with
    | nil => simp [lexLe] at hab
    | cons y ys =>
      cases c with
      | nil => simp [lexLe] at hbc
      | cons z zs =>
        simp only [lexLe] at hab hbc ⊢
        rcases Nat.lt_trichotomy x.toNat y.toNat with hxy | hxy | hxy
        · rcases Nat.lt_trichotomy y.toNat z.toNat with hyz | hyz | hyz
          · simp [Nat.lt_trans hxy hyz]
          · have hxz : x.toNat < z.toNat := by omega
            simp [hxz]
          · simp [Nat.lt_asymm hyz, hyz] at hbc
        · rcases Nat.lt_trichotomy y.toNat z.toNat with hyz | hyz | hyz
          · have hxz : x.toNat < z.toNat := by omega
            simp [hxz]
          · have hxz : x.toNat = z.toNat := by omega
            simp [hxy, Nat.lt_irrefl] at hab
            simp [hyz, Nat.lt_irrefl] at hbc
            simp [hxz, Nat.lt_irrefl]
            exact ih ys zs hab hbc
          · simp [Nat.lt_asymm hyz, hyz] at hbc
        · simp [Nat.lt_asymm hxy, hxy] at hab

theorem skillLe_total (a b : String) : skillLe a b ∨ skillLe b a := by
  have h := lexLe_total a.data b.data
  rcases Bool.or_eq_true_iff.mp h with h' | h'
  · exact Or.inl h'
  · exact Or.inr h'

theorem skillLe_trans {a b c : String} (h1 : skillLe a b) (h2 : skillLe b c) : skillLe a c :=
  lexLe_trans a.data b.data c.data h1 h2

theorem atsKey_total : ∀ x y : String × Nat, (atsKey x y || atsKey y x) = true := by
  intro x y
  unfold atsKey
  rcases Nat.lt_trichotomy x.2 y.2 with h | h | h
  · simp [h, Nat.lt_asymm h]
  · simpa [h, Nat.lt_irrefl] using lexLe_total x.1.data y.1.data
  · simp [h]

theorem atsKey_trans : ∀ x y z : String × Nat,
    atsKey x y = true → atsKey y z = true → atsKey x z = true := by
  intro x y z hxy hyz
  unfold atsKey at hxy hyz ⊢
  rcases Nat.lt_trichotomy x.2 y.2 with h1 | h1 | h1
  · simp [Nat.lt_asymm h1, h1] at hxy
  · rcases Nat.lt_trichotomy y.2 z.2 with h2 | h2 | h2
    · simp [Nat.lt_asymm h2, h2] at hyz
    · have hxz : x.2 = z.2 := by omega
      simp [h1, Nat.lt_irrefl] at hxy
      simp [h2, Nat.lt_irrefl] at hyz
      simp [hxz, Nat.lt_irrefl]
      exact lexLe_trans _ _ _ hxy hyz
    · have : z.2 < x.2 := by omega
      simp [this]
  · rcases Nat.lt_trichotomy y.2 z.2 with h2 | h2 | h2
    · simp [Nat.lt_asymm h2, h2] at hyz
    · have : z.2 < x.2 := by omega
      simp [this]
    · have : z.2 < x.2 := by omega
      simp [this]

theorem hitLe_total (x y : String × Nat) : hitLe x y ∨ hitLe y x := by
  rcases Bool.or_eq_true_iff.mp (atsKey_total x y) with h | h
  · exact Or.inl h
  · exact Or.inr h

theorem hitLe_trans {x y z : String × Nat} (h1 : hitLe x y) (h2 : hitLe y z) : hitLe x z :=
  atsKey_trans x y z h1 h2

/-! ### C5: sponsorship detector -/

/-- C5: for every text, `detect_h1b` returns `some false` (No) whenever a
negative phrase occurs as a substring of the normalised text, regardless of
positive phrases; otherwise `some true` (Yes) whenever a positive phrase
occurs; otherwise `none` (Unknown).  In particular it yields Yes on
"We sponsor H1B visas", No on "No sponsorship available" and Unknown on
"Looking for a data scientist". -/
theorem detect_h1b_spec :
    (∀ text : String,
      (H1B_NEGATIVE_KEYWORDS.any fun kw => containsSub (normalise text).data kw.data) = true →
      detect_h1b text = some false) ∧
    (∀ text : String,
      (H1B_NEGATIVE_KEYWORDS.any fun kw => containsSub (normalise text).data kw.data) = false →
      (H1B_POSITIVE_KEYWORDS.any fun kw => containsSub (normalise text).data kw.data) = true →
      detect_h1b text = some true) ∧
    (∀ text : String,
      (H1B_NEGATIVE_KEYWORDS.any fun kw => containsSub (normalise text).data kw.data) = false →
      (H1B_POSITIVE_KEYWORDS.any fun kw => containsSub (normalise text).data kw.data) = false →
      detect_h1b text = none) ∧
    detect_h1b "We sponsor H1B visas" = some true ∧
    detect_h1b "No sponsorship available" = some false ∧
    detect_h1b "Looking for a data scientist" = none := by
  refine ⟨?_, ?_, ?_, by decide, by decide, by decide⟩
  · intro text hneg
    unfold detect_h1b
    simp only [hneg, if_true]
  · intro text hneg hpos
    unfold detect_h1b
    simp only [hneg, hpos, if_true, if_false, Bool.false_eq_true]
  · intro text hneg hpos
    unfold detect_h1b
    simp only [hneg, hpos, if_false, Bool.false_eq_true]

/-- Witness for C5: the negative branch fires on a concrete posting. -/
theorem detect_h1b_spec_witness :
    (H1B_NEGATIVE_KEYWORDS.any fun kw =>
      containsSub (normalise "No sponsorship available").data kw.data) = true ∧
    detect_h1b "No sponsorship available" = some false :=
  ⟨by decide, detect_h1b_spec.1 "No sponsorship available" (by decide)⟩

/-! ### C6: top-tier (MAANG) employer detector -/

/-- C6: `detect_maang` builds its search corpus from the company name
concatenated with the first 500 characters of the job text, normalises it,
and returns true exactly when some alias matches as a whole word; in
particular "Amazonia Consulting" is not top-tier while "Google", "Meta" and
"Amazon" (with empty job text) are, and "Acme Corp" is not. -/
theorem detect_maang_spec :
    (∀ company_name job_text : String,
      detect_maang company_name job_text =
        (MAANG_ALIASES.any fun al =>
          wholeWordSearch al.data
            (normalise (company_name ++ " " ++ strTake job_text 500)).data)) ∧
    detect_maang "Amazonia Consulting" "" = false ∧
    detect_maang "Google" "" = true ∧
    detect_maang "Meta" "" = true ∧
    detect_maang "Amazon" "" = true ∧
    detect_maang "Acme Corp" "" = false :=
  ⟨fun _ _ => rfl, by decide, by decide, by decide, by decide, by decide⟩

/-! ### C10: Fortune 500 detector on an empty normalised company name -/

/-- C10: whenever the normalised company name is the empty string (empty,
whitespace-only, or punctuation-only input), `detect_fortune500` returns
true, because the empty string is a substring of every entry of the
(non-empty) Fortune dictionary; consequently a job whose company field is
the empty string is always flagged as Fortune 500 by `classify_job`. -/
theorem detect_fortune500_empty_name :
    (∀ company_name : String, normalise company_name = "" →
      detect_fortune500 company_name = true) ∧
    (∀ (job : Job) (resume_profile : ResumeProfile) (c : ClassifiedJob),
      job.company = some "" → classify_job job resume_profile = Except.ok c →
      c.is_fortune500 = true) := by
  constructor
  · intro company_name h
    unfold detect_fortune500
    rw [h]
    decide
  · intro job resume_profile c hco h
    obtain ⟨t, co, d, u⟩ := job
    cases d with
    | none => exact absurd h (by simp [classify_job])
    | some d =>
      cases co with
      | none => exact absurd h (by simp [classify_job])
      | some co =>
        cases u with
        | none => exact absurd h (by simp [classify_job])
        | some u =>
          simp only [Option.some.injEq] at hco
          subst hco
          simp only [classify_job, Except.ok.injEq] at h
          rw [← h]
          show detect_fortune500 "" = true
          decide

/-- Witness for C10: a punctuation-only company name normalises to the
empty string and is flagged as Fortune 500. -/
theorem detect_fortune500_empty_name_witness :
    normalise "!!!" = "" ∧ detect_fortune500 "!!!" = true :=
  ⟨by decide, detect_fortune500_empty_name.1 "!!!" (by decide)⟩

/-! ### C8: empty inputs to the similarity scorer -/

/-- C8: when the resume raw text is empty or the job text is empty,
`calculate_match_score` returns exactly 0 (the Python code hits the early
return, so it cannot raise). -/
theorem calculate_match_score_empty (resume_profile : ResumeProfile) (job_text : String)
    (h : resume_profile.raw_text = "" ∨ job_text = "") :
    calculate_match_score resume_profile job_text = 0 := by
  unfold calculate_match_score
  rw [if_pos h]

/-- Witness for C8: the empty resume text forces a zero score. -/
theorem calculate_match_score_empty_witness :
    profileW.raw_text = "" ∧ calculate_match_score profileW "some job text" = 0 :=
  ⟨rfl, calculate_match_score_empty profileW "some job text" (Or.inl rfl)⟩

/-! ### C2: the combined match-score formula -/

/-- C2: on non-empty resume text and job text, `calculate_match_score`
returns `alpha * tfidfSim + beta * overlapRatio` (alpha 0.65, beta 0.35)
clipped to [0, 1], where the overlap ratio divides the matched distinct
resume keywords by `max(1, keyword count)` (so the denominator is never
zero, even with no keywords); the result always lies in [0, 1]. -/
theorem calculate_match_score_spec (resume_profile : ResumeProfile) (job_text : String) :
    (resume_profile.raw_text ≠ "" → job_text ≠ "" →
      calculate_match_score resume_profile job_text =
        max 0 (min 1 (0.65 * tfidf_similarity resume_profile.raw_text job_text +
          0.35 * overlap_ratio resume_profile job_text))) ∧
    overlap_ratio resume_profile job_text =
      (((resume_profile.all_keywords.dedup.filter fun skill =>
          wholeWordSearch skill.data (normalise job_text).data).length : ℕ) : ℝ) /
        (((max resume_profile.all_keywords.dedup.length 1 : ℕ) : ℝ)) ∧
    (((max resume_profile.all_keywords.dedup.length 1 : ℕ) : ℝ)) ≠ 0 ∧
    0 ≤ calculate_match_score resume_profile job_text ∧
    calculate_match_score resume_profile job_text ≤ 1 := by
  have hden : 0 < max resume_profile.all_keywords.dedup.length 1 :=
    Nat.lt_of_lt_of_le Nat.one_pos (Nat.le_max_right _ _)
  refine ⟨?_, rfl, ?_, ?_, ?_⟩
  · intro h1 h2
    unfold calculate_match_score tfidf_similarity overlap_ratio
    rw [if_neg (not_or.mpr ⟨h1, h2⟩)]
  · exact_mod_cast hden.ne'
  · unfold calculate_match_score
    by_cases h : resume_profile.raw_text = "" ∨ job_text = ""
    · rw [if_pos h]
    · rw [if_neg h]
      exact le_max_left _ _
  · unfold calculate_match_score
    by_cases h : resume_profile.raw_text = "" ∨ job_text = ""
    · rw [if_pos h]; norm_num
    · rw [if_neg h]
      exact max_le zero_le_one (min_le_left _ _)

/-- Witness for C2: the formula applies to a concrete non-empty pair. -/
theorem calculate_match_score_spec_witness :
    (("a" : String) ≠ "" ∧ ("b" : String) ≠ "") ∧
    calculate_match_score ⟨"a", []⟩ "b" =
      max 0 (min 1 (0.65 * tfidf_similarity "a" "b" + 0.35 * overlap_ratio ⟨"a", []⟩ "b")) :=
  ⟨⟨by decide, by decide⟩,
    (calculate_match_score_spec ⟨"a", []⟩ "b").1 (by decide) (by decide)⟩

/-! ### C1: invariants of the classified record -/

/-- C1: every record returned by `classify_job` satisfies
`match_pct = round(match_score * 100, 1)`, every element of `key_skills`
belongs to the profile's `all_keywords` and `key_skills` is sorted
ascending, and `above_threshold` is true iff `match_score` is at least the
configured threshold, whose default value is 0.72. -/
theorem classify_job_invariants (job : Job) (resume_profile : ResumeProfile)
    (c : ClassifiedJob) (h : classify_job job resume_profile = Except.ok c) :
    c.match_pct = pyRound1 (c.match_score * 100) ∧
    (∀ s ∈ c.key_skills, s ∈ resume_profile.all_keywords) ∧
    List.Sorted skillLe c.key_skills ∧
    (c.above_threshold = true ↔ MATCH_THRESHOLD ≤ c.match_score) ∧
    MATCH_THRESHOLD = 0.72 := by
  obtain ⟨t, co, d, u⟩ := job
  cases d with
  | none => exact absurd h (by simp [classify_job])
  | some d =>
    cases co with
    | none => exact absurd h (by simp [classify_job])
    | some co =>
      cases u with
      | none => exact absurd h (by simp [classify_job])
      | some u =>
        simp only [classify_job, Except.ok.injEq] at h
        refine ⟨?_, ?_, ?_, ?_, by norm_num [MATCH_THRESHOLD]⟩
        · rw [← h]
        · rw [← h]
          intro s hs
          have hs' : s ∈ List.insertionSort skillLe
              (resume_profile.all_keywords.dedup.filter fun s =>
                wholeWordSearch s.data (normalise d).data) := hs
          rw [List.mem_insertionSort] at hs'
          exact List.mem_dedup.mp (List.mem_filter.mp hs').1
        · rw [← h]
          show List.Sorted skillLe (List.insertionSort skillLe _)
          haveI : IsTotal String skillLe := ⟨skillLe_total⟩
          haveI : IsTrans String skillLe := ⟨fun _ _ _ => skillLe_trans⟩
          exact List.sorted_insertionSort skillLe _
        · rw [← h]
          show aboveThresholdB (calculate_match_score resume_profile d) = true ↔ _
          unfold aboveThresholdB
          exact decide_eq_true_iff

/-- Witness for C1: `classify_job` succeeds on `jobW`/`profileW` and the
invariants hold for the record it returns. -/
theorem classify_job_invariants_witness :
    classify_job jobW profileW = Except.ok cW ∧
    (cW.match_pct = pyRound1 (cW.match_score * 100) ∧
      (∀ s ∈ cW.key_skills, s ∈ profileW.all_keywords) ∧
      List.Sorted skillLe cW.key_skills ∧
      (cW.above_threshold = true ↔ MATCH_THRESHOLD ≤ cW.match_score) ∧
      MATCH_THRESHOLD = 0.72) :=
  ⟨rfl, classify_job_invariants jobW profileW cW rfl⟩

/-! ### C3: per-job failure isolation in the batch -/

/-- C3: `classify_jobs_batch` is a total function (it never raises), and a
job whose classification fails is simply dropped: the batch output over a
list containing a failing job is identical to the batch output with that
job removed, so every other job is still classified and contributes its
result. -/
theorem classify_jobs_batch_isolation (pre post : List Job) (j : Job)
    (resume_profile : ResumeProfile)
    (h : (classify_job j resume_profile).toOption = none) :
    classify_jobs_batch (pre ++ j :: post) resume_profile =
      classify_jobs_batch (pre ++ post) resume_profile := by
  unfold classify_jobs_batch
  rw [List.filterMap_append, List.filterMap_append, List.filterMap_cons, h]

/-- Witness for C3: a job whose `description` is Python `None` makes
`classify_job` raise, and the batch result is as if the job were absent. -/
theorem classify_jobs_batch_isolation_witness :
    (classify_job jobFail profileW).toOption = none ∧
    classify_jobs_batch ([] ++ jobFail :: []) profileW =
      classify_jobs_batch ([] ++ []) profileW :=
  ⟨rfl, classify_jobs_batch_isolation [] [] jobFail profileW rfl⟩

/-! ### C7: cosine similarity -/

theorem magnitude_nonneg (v : SparseVec) : 0 ≤ magnitude v := Real.sqrt_nonneg _

theorem cosine_similarity_comm (a b : SparseVec) :
    cosine_similarity a b = cosine_similarity b a := by
  unfold cosine_similarity
  have hk : b.keys ∩ a.keys = a.keys ∩ b.keys := Finset.inter_comm _ _
  rw [hk]
  by_cases h1 : a.keys ∩ b.keys = ∅
  · rw [if_pos h1, if_pos h1]
  · rw [if_neg h1, if_neg h1]
    by_cases h2 : magnitude a = 0 ∨ magnitude b = 0
    · rw [if_pos h2, if_pos (Or.symm h2)]
    · rw [if_neg h2, if_neg (fun hc => h2 (Or.symm hc))]
      rw [mul_comm (magnitude b) (magnitude a)]
      congr 1
      exact Finset.sum_congr rfl fun t _ => mul_comm _ _

theorem cosine_similarity_self (v : SparseVec) (h : ∃ t ∈ v.keys, v.val t ≠ 0) :
    cosine_similarity v v = 1 := by
  obtain ⟨t0, ht0, hv0⟩ := h
  have hS : 0 < ∑ t ∈ v.keys, v.val t ^ 2 := by
    have h1 : 0 < v.val t0 ^ 2 := by positivity
    have h2 : v.val t0 ^ 2 ≤ ∑ t ∈ v.keys, v.val t ^ 2 :=
      @Finset.single_le_sum String ℝ _ (fun t => v.val t ^ 2) v.keys
        (fun i _ => sq_nonneg _) t0 ht0
    linarith
  have hmag : magnitude v ≠ 0 := by
    unfold magnitude
    exact Real.sqrt_ne_zero'.mpr hS
  unfold cosine_similarity
  rw [Finset.inter_self]
  rw [if_neg (Finset.ne_empty_of_mem ht0)]
  rw [if_neg (by push_neg; exact ⟨hmag, hmag⟩)]
  have hsum : ∑ t ∈ v.keys, v.val t * v.val t = ∑ t ∈ v.keys, v.val t ^ 2 :=
    Finset.sum_congr rfl fun t _ => (pow_two _).symm
  rw [hsum]
  unfold magnitude
  rw [Real.mul_self_sqrt hS.le]
  exact div_self hS.ne'

theorem cosine_similarity_nonneg_le_one (a b : SparseVec)
    (ha : ∀ t, 0 ≤ a.val t) (hb : ∀ t, 0 ≤ b.val t) :
    0 ≤ cosine_similarity a b ∧ cosine_similarity a b ≤ 1 := by
  unfold cosine_similarity
  by_cases h1 : a.keys ∩ b.keys = ∅
  · rw [if_pos h1]; exact ⟨le_refl 0, zero_le_one⟩
  rw [if_neg h1]
  by_cases h2 : magnitude a = 0 ∨ magnitude b = 0
  · rw [if_pos h2]; exact ⟨le_refl 0, zero_le_one⟩
  rw [if_neg h2]
  push_neg at h2
  have hA : 0 < magnitude a := lt_of_le_of_ne (magnitude_nonneg a) (Ne.symm h2.1)
  have hB : 0 < magnitude b := lt_of_le_of_ne (magnitude_nonneg b) (Ne.symm h2.2)
  have hdot0 : 0 ≤ ∑ t ∈ a.keys ∩ b.keys, a.val t * b.val t :=
    Finset.sum_nonneg fun t _ => mul_nonneg (ha t) (hb t)
  constructor
  · exact div_nonneg hdot0 (mul_nonneg hA.le hB.le)
  · rw [div_le_one (mul_pos hA hB)]
    have hcs : (∑ t ∈ a.keys ∩ b.keys, a.val t * b.val t) ^ 2 ≤
        (∑ t ∈ a.keys ∩ b.keys, a.val t ^ 2) * ∑ t ∈ a.keys ∩ b.keys, b.val t ^ 2 :=
      Finset.sum_mul_sq_le_sq_mul_sq _ _ _
    have hA2 : (0 : ℝ) ≤ ∑ t ∈ a.keys ∩ b.keys, a.val t ^ 2 :=
      Finset.sum_nonneg fun t _ => sq_nonneg _
    have hB2 : (0 : ℝ) ≤ ∑ t ∈ a.keys ∩ b.keys, b.val t ^ 2 :=
      Finset.sum_nonneg fun t _ => sq_nonneg _
    have hsubA : ∑ t ∈ a.keys ∩ b.keys, a.val t ^ 2 ≤ ∑ t ∈ a.keys, a.val t ^ 2 :=
      Finset.sum_le_sum_of_subset_of_nonneg Finset.inter_subset_left
        fun i _ _ => sq_nonneg _
    have hsubB : ∑ t ∈ a.keys ∩ b.keys, b.val t ^ 2 ≤ ∑ t ∈ b.keys, b.val t ^ 2 :=
      Finset.sum_le_sum_of_subset_of_nonneg Finset.inter_subset_right
        fun i _ _ => sq_nonneg _
    calc ∑ t ∈ a.keys ∩ b.keys, a.val t * b.val t
        ≤ Real.sqrt ((∑ t ∈ a.keys ∩ b.keys, a.val t ^ 2) *
            ∑ t ∈ a.keys ∩ b.keys, b.val t ^ 2) :=
          (Real.le_sqrt hdot0 (mul_nonneg hA2 hB2)).mpr hcs
      _ = Real.sqrt (∑ t ∈ a.keys ∩ b.keys, a.val t ^ 2) *
            Real.sqrt (∑ t ∈ a.keys ∩ b.keys, b.val t ^ 2) := Real.sqrt_mul hA2 _
      _ ≤ magnitude a * magnitude b := by
          unfold magnitude
          exact mul_le_mul (Real.sqrt_le_sqrt hsubA) (Real.sqrt_le_sqrt hsubB)
            (Real.sqrt_nonneg _) (Real.sqrt_nonneg _)

theorem compute_idf_pos (corpus : List (List String)) (t : String) :
    0 < compute_idf corpus t := by
  unfold compute_idf
  by_cases h : (corpus.filter fun tokens => t ∈ tokens).length = 0
  · rw [if_pos h]; norm_num
  · rw [if_neg h]
    have hle : (corpus.filter fun tokens => t ∈ tokens).length ≤ corpus.length :=
      List.length_filter_le _ _
    have h1 : (1 : ℝ) ≤ ((corpus.length : ℝ) + 1) /
        (((corpus.filter fun tokens => t ∈ tokens).length : ℝ) + 1) := by
      rw [one_le_div (by positivity)]
      have : ((corpus.filter fun tokens => t ∈ tokens).length : ℝ) ≤ (corpus.length : ℝ) := by
        exact_mod_cast hle
      linarith
    have := Real.log_nonneg h1
    linarith

theorem build_tfidf_vector_val_pos (tokens : List String) (idf : String → ℝ)
    (hidf : ∀ u, 0 < idf u) (t : String) (ht : t ∈ tokens) :
    0 < (build_tfidf_vector tokens idf).val t := by
  have hc : 0 < tokens.count t := List.count_pos_iff.mpr ht
  have hcr : (0 : ℝ) < (tokens.count t : ℝ) := by exact_mod_cast hc
  have hl : 0 < max tokens.length 1 := Nat.lt_of_lt_of_le Nat.one_pos (Nat.le_max_right _ _)
  have hlr : (0 : ℝ) < ((max tokens.length 1 : ℕ) : ℝ) := by exact_mod_cast hl
  show 0 < ((tokens.count t : ℝ) / ((max tokens.length 1 : ℕ) : ℝ)) * idf t
  exact mul_pos (div_pos hcr hlr) (hidf t)

/-- C7: `_cosine_similarity` is symmetric; it is exactly 1 on a TF-IDF
vector built (with the code's IDF weights) from any non-empty token list
paired with itself; for vectors with non-negative values the result lies in
[0, 1]; and it is 0 when the key sets do not intersect or a magnitude is
zero. -/
theorem cosine_similarity_spec :
    (∀ a b : SparseVec, cosine_similarity a b = cosine_similarity b a) ∧
    (∀ (tokens : List String) (corpus : List (List String)), tokens ≠ [] →
      cosine_similarity (build_tfidf_vector tokens (compute_idf corpus))
        (build_tfidf_vector tokens (compute_idf corpus)) = 1) ∧
    (∀ a b : SparseVec, (∀ t, 0 ≤ a.val t) → (∀ t, 0 ≤ b.val t) →
      0 ≤ cosine_similarity a b ∧ cosine_similarity a b ≤ 1) ∧
    (∀ a b : SparseVec, a.keys ∩ b.keys = ∅ → cosine_similarity a b = 0) ∧
    (∀ a b : SparseVec, magnitude a = 0 ∨ magnitude b = 0 →
      cosine_similarity a b = 0) := by
  refine ⟨cosine_similarity_comm, ?_, cosine_similarity_nonneg_le_one, ?_, ?_⟩
  · intro tokens corpus h
    obtain ⟨t0, ht0⟩ := List.exists_mem_of_ne_nil tokens h
    apply cosine_similarity_self
    refine ⟨t0, ?_, ?_⟩
    · show t0 ∈ tokens.toFinset
      exact List.mem_toFinset.mpr ht0
    · exact (build_tfidf_vector_val_pos tokens _ (compute_idf_pos corpus) t0 ht0).ne'
  · intro a b h
    unfold cosine_similarity
    rw [if_pos h]
  · intro a b h
    unfold cosine_similarity
    by_cases h1 : a.keys ∩ b.keys = ∅
    · rw [if_pos h1]
    · rw [if_neg h1, if_pos h]

/-- Witness for C7: self-similarity is 1 on the TF-IDF vector of a concrete
one-token document. -/
theorem cosine_similarity_spec_witness :
    (["python"] ≠ ([] : List String)) ∧
    cosine_similarity (build_tfidf_vector ["python"] (compute_idf [["python"]]))
      (build_tfidf_vector ["python"] (compute_idf [["python"]])) = 1 :=
  ⟨by decide, cosine_similarity_spec.2.1 ["python"] [["python"]] (by decide)⟩

/-! ### C9: ATS keyword extraction -/

theorem ats_hits_eq (nj : List Char) (skills : List String) :
    (skills.filterMap fun skill =>
        if 0 < countOcc skill.data nj then some (skill, countOcc skill.data nj) else none) =
      (skills.filter fun skill => decide (0 < countOcc skill.data nj)).map
        fun skill => (skill, countOcc skill.data nj) := by
  induction skills with
  | nil => rfl
  | cons x xs ih =>
    by_cases h : 0 < countOcc x.data nj
    · simp [List.filterMap_cons, List.filter_cons, h, ih]
    · simp [List.filterMap_cons, List.filter_cons, h, ih]

/-- C9: `extract_ats_keywords` does not depend on the resume profile; it
returns at most 20 terms, namely the dictionary terms with positive
whole-word occurrence count in the normalised job text (all of them when at
most 20 qualify), ordered by descending count with ties broken by ascending
term.  The output is exactly the 20-term prefix of the sorted qualifying
list: it equals that prefix literally, and every returned term ranks at
least as high (under the descending-count, ascending-term key) as every
qualifying dictionary term that was truncated away. -/
theorem extract_ats_keywords_spec (job_text : String) (p q : ResumeProfile) :
    extract_ats_keywords job_text p = extract_ats_keywords job_text q ∧
    (extract_ats_keywords job_text p).length ≤ 20 ∧
    (extract_ats_keywords job_text p).length =
      min ((ALL_KNOWN_SKILLS.filter fun s =>
        decide (0 < countOcc s.data (normalise job_text).data)).length) 20 ∧
    (∀ s ∈ extract_ats_keywords job_text p,
      s ∈ ALL_KNOWN_SKILLS ∧ 0 < countOcc s.data (normalise job_text).data) ∧
    ((ALL_KNOWN_SKILLS.filter fun s =>
        decide (0 < countOcc s.data (normalise job_text).data)).length ≤ 20 →
      ∀ s ∈ ALL_KNOWN_SKILLS, 0 < countOcc s.data (normalise job_text).data →
        s ∈ extract_ats_keywords job_text p) ∧
    List.Pairwise (fun a b : String =>
      countOcc b.data (normalise job_text).data < countOcc a.data (normalise job_text).data ∨
        (countOcc a.data (normalise job_text).data = countOcc b.data (normalise job_text).data ∧
          lexLe a.data b.data = true))
      (extract_ats_keywords job_text p) ∧
    extract_ats_keywords job_text p =
      (((((ALL_KNOWN_SKILLS.filter fun s =>
          decide (0 < countOcc s.data (normalise job_text).data)).map
            fun s => (s, countOcc s.data (normalise job_text).data)).insertionSort
              hitLe).take 20).map Prod.fst) ∧
    (∀ s ∈ extract_ats_keywords job_text p, ∀ t ∈ ALL_KNOWN_SKILLS,
      0 < countOcc t.data (normalise job_text).data →
      t ∉ extract_ats_keywords job_text p →
      countOcc t.data (normalise job_text).data < countOcc s.data (normalise job_text).data ∨
        (countOcc s.data (normalise job_text).data = countOcc t.data (normalise job_text).data ∧
          lexLe s.data t.data = true)) := by
  haveI : IsTotal (String × Nat) hitLe := ⟨hitLe_total⟩
  haveI : IsTrans (String × Nat) hitLe := ⟨fun _ _ _ => hitLe_trans⟩
  have hrw : extract_ats_keywords job_text p =
      (((((ALL_KNOWN_SKILLS.filter fun s =>
          decide (0 < countOcc s.data (normalise job_text).data)).map
            fun s => (s, countOcc s.data (normalise job_text).data)).insertionSort
              hitLe).take 20).map Prod.fst) := by
    simp only [extract_ats_keywords]
    rw [ats_hits_eq]
  have hSlen : ((((ALL_KNOWN_SKILLS.filter fun s =>
      decide (0 < countOcc s.data (normalise job_text).data)).map
        fun s => (s, countOcc s.data (normalise job_text).data)).insertionSort
          hitLe)).length =
      (ALL_KNOWN_SKILLS.filter fun s =>
        decide (0 < countOcc s.data (normalise job_text).data)).length := by
    rw [(List.perm_insertionSort hitLe _).length_eq, List.length_map]
  have hshape : ∀ r ∈ ((ALL_KNOWN_SKILLS.filter fun s =>
      decide (0 < countOcc s.data (normalise job_text).data)).map
        fun s => (s, countOcc s.data (normalise job_text).data)),
      r.2 = countOcc r.1.data (normalise job_text).data := by
    intro r hr
    obtain ⟨s', _, rfl⟩ := List.mem_map.mp hr
    rfl
  refine ⟨rfl, ?_, ?_, ?_, ?_, ?_, hrw, ?_⟩
  · rw [hrw, List.length_map, List.length_take]
    exact min_le_left _ _
  · rw [hrw, List.length_map, List.length_take, hSlen, Nat.min_comm]
  · intro s hs
    rw [hrw] at hs
    obtain ⟨pr, hpr, rfl⟩ := List.mem_map.mp hs
    have hprS := (List.take_sublist _ _).subset hpr
    have hprH := (List.mem_insertionSort hitLe).mp hprS
    obtain ⟨s', hs', rfl⟩ := List.mem_map.mp hprH
    have := List.mem_filter.mp hs'
    exact ⟨this.1, of_decide_eq_true this.2⟩
  · intro hlen s hsALL hspos
    rw [hrw]
    rw [List.take_of_length_le (by rw [hSlen]; exact hlen)]
    refine List.mem_map.mpr ⟨(s, countOcc s.data (normalise job_text).data), ?_, rfl⟩
    refine (List.mem_insertionSort hitLe).mpr ?_
    exact List.mem_map.mpr ⟨s, List.mem_filter.mpr ⟨hsALL, decide_eq_true hspos⟩, rfl⟩
  · rw [hrw]
    refine List.pairwise_map.mpr ?_
    have hpwS : (((ALL_KNOWN_SKILLS.filter fun s =>
        decide (0 < countOcc s.data (normalise job_text).data)).map
          fun s => (s, countOcc s.data (normalise job_text).data)).insertionSort
            hitLe).Pairwise hitLe := List.sorted_insertionSort hitLe _
    have hpwT := List.Pairwise.sublist (List.take_sublist 20 _) hpwS
    refine hpwT.imp_of_mem ?_
    intro a b ha hb hr
    have haH := (List.mem_insertionSort hitLe).mp ((List.take_sublist _ _).subset ha)
    have hbH := (List.mem_insertionSort hitLe).mp ((List.take_sublist _ _).subset hb)
    have ha2 := hshape a haH
    have hb2 := hshape b hbH
    unfold hitLe atsKey at hr
    rcases Nat.lt_trichotomy a.2 b.2 with h | h | h
    · simp [Nat.lt_asymm h, h] at hr
    · right
      constructor
      · rw [← ha2, ← hb2]; exact h
      · simpa [h, Nat.lt_irrefl] using hr
    · left
      rw [← ha2, ← hb2]
      exact h
  · intro s hs t htALL htpos htout
    rw [hrw] at hs htout
    obtain ⟨pr, hpr, rfl⟩ := List.mem_map.mp hs
    have hprH := (List.mem_insertionSort hitLe).mp ((List.take_sublist 20 _).subset hpr)
    have hpr2 := hshape pr hprH
    have htH : (t, countOcc t.data (normalise job_text).data) ∈
        ((ALL_KNOWN_SKILLS.filter fun s =>
          decide (0 < countOcc s.data (normalise job_text).data)).map
            fun s => (s, countOcc s.data (normalise job_text).data)) :=
      List.mem_map.mpr ⟨t, List.mem_filter.mpr ⟨htALL, decide_eq_true htpos⟩, rfl⟩
    have htS := (List.mem_insertionSort hitLe).mpr htH
    have hpwS : (((ALL_KNOWN_SKILLS.filter fun s =>
        decide (0 < countOcc s.data (normalise job_text).data)).map
          fun s => (s, countOcc s.data (normalise job_text).data)).insertionSort
            hitLe).Pairwise hitLe := List.sorted_insertionSort hitLe _
    have hsplit : ((((ALL_KNOWN_SKILLS.filter fun s =>
        decide (0 < countOcc s.data (normalise job_text).data)).map
          fun s => (s, countOcc s.data (normalise job_text).data)).insertionSort
            hitLe).take 20 ++
        (((ALL_KNOWN_SKILLS.filter fun s =>
          decide (0 < countOcc s.data (normalise job_text).data)).map
            fun s => (s, countOcc s.data (normalise job_text).data)).insertionSort
              hitLe).drop 20).Pairwise hitLe := by
      rw [List.take_append_drop]
      exact hpwS
    have htS2 : (t, countOcc t.data (normalise job_text).data) ∈
        (((ALL_KNOWN_SKILLS.filter fun s =>
          decide (0 < countOcc s.data (normalise job_text).data)).map
            fun s => (s, countOcc s.data (normalise job_text).data)).insertionSort
              hitLe).take 20 ++
        (((ALL_KNOWN_SKILLS.filter fun s =>
          decide (0 < countOcc s.data (normalise job_text).data)).map
            fun s => (s, countOcc s.data (normalise job_text).data)).insertionSort
              hitLe).drop 20 := by
      rw [List.take_append_drop]
      exact htS
    rcases List.mem_append.mp htS2 with htake | hdrop
    · exact absurd (List.mem_map.mpr ⟨_, htake, rfl⟩) htout
    · have hr : hitLe pr (t, countOcc t.data (normalise job_text).data) :=
        (List.pairwise_append.mp hsplit).2.2 pr hpr _ hdrop
      unfold hitLe atsKey at hr
      rcases Nat.lt_trichotomy pr.2 (countOcc t.data (normalise job_text).data) with h | h | h
      · simp [Nat.lt_asymm h, h] at hr
      · right
        constructor
        · rw [← hpr2]; exact h
        · simpa [h, Nat.lt_irrefl] using hr
      · left
        rw [← hpr2]
        exact h

/-- Witness for C9: on the job text "python and sql" fewer than 20 terms
qualify, "python" is a dictionary term with a positive count, and it is
indeed returned. -/
theorem extract_ats_keywords_spec_witness :
    ((ALL_KNOWN_SKILLS.filter fun s =>
        decide (0 < countOcc s.data (normalise "python and sql").data)).length ≤ 20 ∧
      "python" ∈ ALL_KNOWN_SKILLS ∧
      0 < countOcc "python".data (normalise "python and sql").data) ∧
    "python" ∈ extract_ats_keywords "python and sql" profileW :=
  ⟨⟨by decide, by decide, by decide⟩,
    (extract_ats_keywords_spec "python and sql" profileW profileW).2.2.2.2.1 (by decide)
      "python" (by decide) (by decide)⟩

/-! ### C4: batch filtering, ordering and stability -/

theorem classify_job_above_eq (job : Job) (resume_profile : ResumeProfile)
    (c : ClassifiedJob) (h : classify_job job resume_profile = Except.ok c) :
    c.above_threshold = aboveThresholdB c.match_score := by
  obtain ⟨t, co, d, u⟩ := job
  cases d with
  | none => exact absurd h (by simp [classify_job])
  | some d =>
    cases co with
    | none => exact absurd h (by simp [classify_job])
    | some co =>
      cases u with
      | none => exact absurd h (by simp [classify_job])
      | some u =>
        simp only [classify_job, Except.ok.injEq] at h
        rw [← h]

theorem pctDesc_total (a b : ClassifiedJob) : pctDesc a b ∨ pctDesc b a :=
  le_total b.match_pct a.match_pct

theorem pctDesc_trans {a b c : ClassifiedJob} (h1 : pctDesc a b) (h2 : pctDesc b c) :
    pctDesc a c := le_trans h2 h1

theorem insertionSort_filter_stable (l : List ClassifiedJob) (x : ℝ) :
    (l.insertionSort pctDesc).filter (fun c => decide (c.match_pct = x)) =
      l.filter (fun c => decide (c.match_pct = x)) := by
  have hsub : (l.filter fun c => decide (c.match_pct = x)).Sublist l := List.filter_sublist l
  have hpw : (l.filter (fun c => decide (c.match_pct = x))).Pairwise pctDesc := by
    rw [List.pairwise_iff_forall_sublist]
    intro a b hab
    have ha : a ∈ l.filter (fun c => decide (c.match_pct = x)) := hab.subset (by simp)
    have hb : b ∈ l.filter (fun c => decide (c.match_pct = x)) := hab.subset (by simp)
    have hax : a.match_pct = x := of_decide_eq_true (List.mem_filter.mp ha).2
    have hbx : b.match_pct = x := of_decide_eq_true (List.mem_filter.mp hb).2
    unfold pctDesc
    rw [hax, hbx]
  have h1 : (l.filter fun c => decide (c.match_pct = x)).Sublist (l.insertionSort pctDesc) :=
    List.sublist_insertionSort hpw hsub
  have hself : (l.filter (fun c => decide (c.match_pct = x))).filter
      (fun c => decide (c.match_pct = x)) = l.filter (fun c => decide (c.match_pct = x)) :=
    List.filter_eq_self.mpr fun a ha => (List.mem_filter.mp ha).2
  have h2 : (l.filter fun c => decide (c.match_pct = x)).Sublist
      ((l.insertionSort pctDesc).filter fun c => decide (c.match_pct = x)) := by
    have h12 := h1.filter (fun c => decide (c.match_pct = x))
    rwa [hself] at h12
  have h3 : ((l.insertionSort pctDesc).filter (fun c => decide (c.match_pct = x))).Perm
      (l.filter (fun c => decide (c.match_pct = x))) :=
    (List.perm_insertionSort pctDesc l).filter _
  exact (h2.eq_of_length h3.length_eq.symm).symm

/-- C4: the batch output is sorted by `match_pct` descending; it is a
permutation of exactly the successfully classified jobs whose
`above_threshold` field is true; every output element is above threshold
(equivalently its `match_score` reaches the threshold); and ties (equal
`match_pct`) keep the relative order of the qualifying list, i.e. the input
order (stable sort). -/
theorem classify_jobs_batch_spec (jobs : List Job) (resume_profile : ResumeProfile) :
    List.Sorted pctDesc (classify_jobs_batch jobs resume_profile) ∧
    (classify_jobs_batch jobs resume_profile).Perm
      ((jobs.filterMap fun job => (classify_job job resume_profile).toOption).filter
        fun j => j.above_threshold) ∧
    (classify_jobs_batch jobs resume_profile).all
      (fun j => j.above_threshold && aboveThresholdB j.match_score) = true ∧
    ∀ x : ℝ, (classify_jobs_batch jobs resume_profile).filter
        (fun c => decide (c.match_pct = x)) =
      ((jobs.filterMap fun job => (classify_job job resume_profile).toOption).filter
        fun j => j.above_threshold).filter (fun c => decide (c.match_pct = x)) := by
  haveI : IsTotal ClassifiedJob pctDesc := ⟨pctDesc_total⟩
  haveI : IsTrans ClassifiedJob pctDesc := ⟨fun _ _ _ => pctDesc_trans⟩
  refine ⟨List.sorted_insertionSort pctDesc _, List.perm_insertionSort pctDesc _, ?_, ?_⟩
  · rw [List.all_eq_true]
    intro j hj
    have hj1 := (List.mem_insertionSort pctDesc).mp hj
    have hj2 := List.mem_filter.mp hj1
    obtain ⟨job, _, hok⟩ := List.mem_filterMap.mp hj2.1
    have hok' : classify_job job resume_profile = Except.ok j := by
      cases hcl : classify_job job resume_profile with
      | error e => rw [hcl] at hok; exact absurd hok (by simp [Except.toOption])
      | ok c =>
        rw [hcl] at hok
        simp only [Except.toOption, Option.some.injEq] at hok
        rw [hok]
    rw [Bool.and_eq_true]
    refine ⟨hj2.2, ?_⟩
    rw [← classify_job_above_eq job resume_profile j hok']
    exact hj2.2
  · intro x
    exact insertionSort_filter_stable _ x

end JobBrain
